import Mathlib

/-!
Verification of the simphony simulation drivers and waveguide models.

Shallow embedding of `simphony/simulators.py` (the `Simulator`,
`SweepSimulator` and `MonteCarloSweepSimulator` classes) and of
`simphony/elements/ebeam_wg_integral_1550/models.py` (the `ANN_WG` and
`Lumerical_1550` waveguide models), together with theorems settling the
frozen claims about them.

Conventions of the embedding:
* Frequencies and the entries of circuit-level scattering matrices are exact
  rationals; a complex entry is a pair `(re, im) : ℚ × ℚ` so that all
  circuit-level computations are executable.
* The waveguide models of `models.py` compute with transcendental functions
  (`exp`, `π`, `log10`); they are embedded over `ℝ`/`ℂ`.
* Python exceptions become an explicit `SimError` sum; a Python method that
  can raise returns `Except SimError _`.
* The circuit-reduction infrastructure (`simphony.models.Subcircuit`,
  `simphony.tools.wl2freq/freq2wl`, the component protocol with
  `regenerate_monte_carlo_parameters`) is imported by `simulators.py` but its
  source is not part of this snapshot; those parts are modelled from the
  spec, as documented on each definition.
-/

/-- Speed of light in m/s, the constant `c0 = 299792458` used by
`models.py` and by the unit-conversion helpers. -/
def speedOfLight : ℚ := 299792458

/-- Modelled from the spec: `simphony.tools.wl2freq` (not in this snapshot),
"frequency = speed_of_light / wavelength". -/
def wl2freq (wl : ℚ) : ℚ := speedOfLight / wl

/-- Modelled from the spec: `simphony.tools.freq2wl` (not in this snapshot),
the inverse conversion, wavelength = speed_of_light / frequency. -/
def freq2wl (f : ℚ) : ℚ := speedOfLight / f

/-- Embedding of `np.linspace start stop num`: `num` evenly spaced samples from `start`
to `stop`, endpoints included (`[start]` for `num = 1`, `[]` for
`num = 0`). -/
def linspace (start stop : ℚ) (num : ℕ) : List ℚ :=
  (List.range num).map
    (fun i => if num ≤ 1 then start else start + (stop - start) * i / ((num : ℚ) - 1))

/-- A complex scattering-matrix entry as an exact pair (real part,
imaginary part). -/
abbrev GQ := ℚ × ℚ

/-- Squared magnitude `np.abs z ** 2 = re² + im²` of a complex entry. -/
def gqNormSq (z : GQ) : ℚ := z.1 * z.1 + z.2 * z.2

/-- One scattering matrix (at one frequency sample), row-major. -/
abbrev SMat := List (List GQ)

/-- Entry `m[i][j]` of a scattering matrix (`(0, 0)` out of range). -/
def getEntry (m : SMat) (i j : ℕ) : GQ := ((m.getD i []).getD j (0, 0))

/-- The squared magnitude of entry `(i, j)`: the power ratio the simulator
extracts. -/
def entrySq (m : SMat) (i j : ℕ) : ℚ := gqNormSq (getEntry m i j)

/-- The `s_parameters_method` argument of the simulator methods: which of
the two component-protocol matrix methods to call. -/
inductive SMethod
  | sParams
  | monteCarloSParams
deriving DecidableEq, Repr

/-- Modelled from the spec: the reduced equivalent of a circuit
(`simphony.models.Subcircuit`, not in this snapshot).  Its pin list is the
circuit's external pins in a stable order, it answers both matrix methods
over a frequency grid, and it records whether it was built as the circuit's
permanent cached reduction or as a disposable one. -/
structure Subcircuit where
  pins : List ℕ
  sFn : List ℚ → List SMat
  mcFn : List ℚ → List SMat
  permanent : Bool

/-- Dispatch on the `s_parameters_method` name, as
`getattr(subcircuit, s_parameters_method)(freqs)` does. -/
def Subcircuit.apply (sub : Subcircuit) (method : SMethod) (freqs : List ℚ) : List SMat :=
  match method with
  | .sParams => sub.sFn freqs
  | .monteCarloSParams => sub.mcFn freqs

/-- Modelled from the spec: a circuit of components (`simphony.models`, not
in this snapshot).  `paramStates` holds one current Monte-Carlo parameter
draw per component (a draw counter standing for the component's current
random deviations); `extPins` is the stable external-pin order;
`sFn` is the nominal reduced scattering response and `mcFn` the reduced
response computed from the current per-component draws. -/
structure Circuit where
  paramStates : List ℕ
  extPins : List ℕ
  sFn : List ℚ → List SMat
  mcFn : List ℕ → List ℚ → List SMat

/-- Modelled from the spec: `circuit.to_subcircuit(permanent=...)` collapses
the circuit into its reduced equivalent; the Monte-Carlo method of the
result reads the components' current parameter draws. -/
def Circuit.toSubcircuit (c : Circuit) (permanent : Bool) : Subcircuit :=
  { pins := c.extPins
    sFn := c.sFn
    mcFn := c.mcFn c.paramStates
    permanent := permanent }

/-- Modelled from the spec: calling
`component.regenerate_monte_carlo_parameters()` on every component of the
circuit; each component's current draw is replaced by a fresh one
(the draw counter advances). -/
def Circuit.regenerateAll (c : Circuit) : Circuit :=
  { c with paramStates := c.paramStates.map (· + 1) }

/-- The error outcomes of a simulation call.  `unconnected` is the
`RuntimeError("Simulator must be connected before simulating.")` of
`Simulator._generate` (the `UnconnectedError` kind of the error-handling
design); `noneGrid` models the failure that occurs downstream when both
`freq` and `freqs` were left unset and the `None` grid reaches the
s-parameter evaluation (a `TypeError` in the Python code, not a
`ValueError`). -/
inductive SimError
  | unconnected
  | noneGrid
deriving DecidableEq, Repr

/-- The `Simulator` of `simulators.py`: its two pins `"input"` and
`"output"` are each either connected to a circuit pin (`some pinId`) or
unconnected (`none`), and it holds the circuit it monitors. -/
structure Simulator where
  circuit : Circuit
  inputConn : Option ℕ
  outputConn : Option ℕ

/-- Embedding of `Simulator._generate(freqs, s_parameters_method)`: raises if either
monitored pin is unconnected, otherwise builds the non-permanent
subcircuit reduction, calls the requested matrix method on it, and returns
the matrix stack with the subcircuit's pins.  The `none` grid case models
the downstream failure of evaluating s-parameters on `None`. -/
def Simulator.generate (sim : Simulator) (freqs : Option (List ℚ))
    (method : SMethod) : Except SimError (List SMat × List ℕ) :=
  if sim.inputConn.isNone ∨ sim.outputConn.isNone then
    .error .unconnected
  else
    match freqs with
    | none => .error .noneGrid
    | some fs =>
      let subcircuit := sim.circuit.toSubcircuit false
      .ok (subcircuit.apply method fs, subcircuit.pins)

/-- The elementwise post-processing of a power ratio: `np.log10` when `dB`
is requested, the plain ratio otherwise (the ratios are exact rationals,
the logarithm is real). -/
noncomputable def applyDB (dB : Bool) (q : ℚ) : ℝ :=
  if dB then Real.logb 10 (q : ℝ) else (q : ℝ)

/-- Embedding of `Simulator.simulate(dB, freq, freqs, s_parameters_method)`.
`if freq:` makes a nonzero `freq` override `freqs` with the one-point grid
`np.array(freq)`; the stack of reduced matrices is turned elementwise into
`np.abs(...)**2` (then `np.log10` under `dB`), and column
`[:, input, output]` is extracted, where `input`/`output` are the positions
of the pins connected to the simulator's own pins inside the reduced pin
list.  Taking `np.abs(...)**2`/`np.log10` elementwise and then slicing
equals slicing first and applying the scalar operations, which is how the
extraction is written here. -/
noncomputable def Simulator.simulate (sim : Simulator) (dB : Bool) (freq : ℚ)
    (freqs : Option (List ℚ)) (method : SMethod) :
    Except SimError (List ℚ × List ℝ) :=
  let freqs2 := if freq ≠ 0 then some [freq] else freqs
  match sim.generate freqs2 method with
  | .error e => .error e
  | .ok (stack, pins) =>
    let input := pins.indexOf (sim.inputConn.getD 0)
    let output := pins.indexOf (sim.outputConn.getD 0)
    .ok (freqs2.getD [], stack.map (fun m => applyDB dB (entrySq m input output)))

/-- The `SweepSimulator` state after `__init__`: the underlying simulator,
the auto-detected mode (`true` for `"wl"`), and the stored frequency
grid. -/
structure SweepSimulator where
  sim : Simulator
  mode : Bool
  freqs : List ℚ

/-- Embedding of `SweepSimulator.__init__(start, stop, num)`: mode is `"wl"` iff
`start < 1`; in wavelength mode both bounds are converted with `wl2freq`
before the `np.linspace` grid is built. -/
def SweepSimulator.make (sim : Simulator) (start stop : ℚ) (num : ℕ) :
    SweepSimulator :=
  if start < 1 then
    { sim := sim, mode := true, freqs := linspace (wl2freq start) (wl2freq stop) num }
  else
    { sim := sim, mode := false, freqs := linspace start stop num }

/-- Embedding of `SweepSimulator.simulate(**kwargs)`: delegates to `Simulator.simulate`
with `freqs=self.freqs` (and the caller's `dB`/method), then in wavelength
mode maps `freq2wl` over the returned frequencies and `np.flip`s the power
ratios. -/
noncomputable def SweepSimulator.simulate (s : SweepSimulator) (dB : Bool)
    (method : SMethod) : Except SimError (List ℚ × List ℝ) :=
  match s.sim.simulate dB 0 (some s.freqs) method with
  | .error e => .error e
  | .ok (fs, powerRatios) =>
    if s.mode then .ok (fs.map freq2wl, powerRatios.reverse)
    else .ok (fs, powerRatios)

/-- The mutation of `self.circuit` performed by the per-trial loop of
`MonteCarloSweepSimulator.simulate`: every component regenerates its
Monte-Carlo parameters. -/
def SweepSimulator.regen (s : SweepSimulator) : SweepSimulator :=
  { s with sim := { s.sim with circuit := s.sim.circuit.regenerateAll } }

/-- The body of `MonteCarloSweepSimulator.simulate`'s loop, with the loop
index `i` and the number of remaining iterations explicit; the mutated
circuit state is threaded as the returned `SweepSimulator`.  Iteration `i`
appends the result of a sweep run with method `s_parameters` when `i = 0`
and `monte_carlo_s_parameters` otherwise, then regenerates every
component's parameters. -/
noncomputable def mcLoop (dB : Bool) :
    SweepSimulator → ℕ → ℕ →
    List (Except SimError (List ℚ × List ℝ)) × SweepSimulator
  | s, _, 0 => ([], s)
  | s, i, n + 1 =>
    let method := if i = 0 then SMethod.sParams else SMethod.monteCarloSParams
    let r := s.simulate dB method
    let rest := mcLoop dB s.regen (i + 1) n
    (r :: rest.1, rest.2)

/-- Embedding of `MonteCarloSweepSimulator.simulate(runs, **kwargs)`: `runs` sweep
trials, collecting the per-trial results in order; the final component
state (mutated by the in-loop regenerations) is returned alongside, making
the Python side effect on `self.circuit` explicit. -/
noncomputable def MonteCarloSweepSimulator.simulate (s : SweepSimulator)
    (runs : ℕ) (dB : Bool) :
    List (Except SimError (List ℚ × List ℝ)) × SweepSimulator :=
  mcLoop dB s 0 runs

/-- The loss coefficient `alpha = TE_loss / (20 * log10 e)` with
`TE_loss = 700` dB/m, shared by both waveguide models of `models.py`. -/
noncomputable def annAlpha : ℝ := 700 / (20 * Real.logb 10 (Real.exp 1))

/-- The transmission entry `np.exp(-alpha*L + K*L*1j)` written by both
waveguide models into the `(0,1)` and `(1,0)` slots, for a propagation
length `L` and (real) propagation constant `K`. -/
noncomputable def wgEntry (L K : ℝ) : ℂ :=
  Complex.exp (Complex.ofReal (-(annAlpha * L)) + Complex.ofReal (K * L) * Complex.I)

/-- One frequency sample of `ANN_WG.get_s_parameters`: the 2×2 matrix built
by the loop `mat[x,0,1] = mat[x,1,0] = np.exp(-alpha*waveguideLength +
(K[x]*waveguideLength*1j))` on a zero-initialised matrix, with
`waveguideLength = length + length * delta_length`, `wl = c0 / f` and
`K = 2π · neff / wl`.  The effective index comes from
`ANN_WG.straightWaveguide(wl, width, thickness, 90)`, a polynomial whose
coefficient file `straightCoeffs.npy` is not in this snapshot, so the
real-valued map `neff` is a parameter of the embedding. -/
noncomputable def ANN_WG.sMat (neff : ℝ → ℝ → ℝ → ℝ → ℝ)
    (length width thickness delta_length : ℝ) (f : ℝ) :
    Matrix (Fin 2) (Fin 2) ℂ :=
  let waveguideLength : ℝ := length + length * delta_length
  let wl : ℝ := 299792458 / f
  let K : ℝ := 2 * Real.pi * neff wl width thickness 90 / wl
  !![0, wgEntry waveguideLength K; wgEntry waveguideLength K, 0]

/-- Embedding of `ANN_WG.get_s_parameters(frequency, length, width, thickness,
delta_length)`: returns the frequency array unchanged together with the
per-frequency stack of 2×2 scattering matrices. -/
noncomputable def ANN_WG.get_s_parameters (neff : ℝ → ℝ → ℝ → ℝ → ℝ)
    (frequency : List ℝ) (length width thickness delta_length : ℝ) :
    List ℝ × List (Matrix (Fin 2) (Fin 2) ℂ) :=
  (frequency, frequency.map (ANN_WG.sMat neff length width thickness delta_length))

/-- One frequency sample of `Lumerical_1550.get_s_parameters`: the matrix
built by `mat[x,0,1] = mat[x,1,0] = np.exp(-alpha*length +
(K[x]*length*1j))` on a zero-initialised matrix, with `w = 2πf`,
`w0 = 2πc0/lam0` and the dispersion expansion
`K = 2π·ne/lam0 + (ng/c0)(w−w0) − (nd·lam0²/(4πc0))(w−w0)²`.  The
coefficients `lam0`, `ne`, `ng`, `nd` are read from the data file
`WaveGuideTETMStrip,w=500,h=220.txt`, which is not in this snapshot, so
they are parameters of the embedding. -/
noncomputable def Lumerical_1550.sMat (lam0 ne ng nd : ℝ) (length : ℝ)
    (f : ℝ) : Matrix (Fin 2) (Fin 2) ℂ :=
  let c0 : ℝ := 299792458
  let w : ℝ := f * (2 * Real.pi)
  let w0 : ℝ := 2 * Real.pi * c0 / lam0
  let K : ℝ := 2 * Real.pi * ne / lam0 + (ng / c0) * (w - w0)
    - (nd * lam0 ^ 2 / (4 * Real.pi * c0)) * (w - w0) ^ 2
  !![0, wgEntry length K; wgEntry length K, 0]

/-- Embedding of `Lumerical_1550.get_s_parameters(frequency, length, width, thickness,
delta_length)`: the frequency array unchanged with the per-frequency stack
of matrices (`width`, `thickness` and `delta_length` are accepted but not
used by this model's body). -/
noncomputable def Lumerical_1550.get_s_parameters (lam0 ne ng nd : ℝ)
    (frequency : List ℝ) (length width thickness delta_length : ℝ) :
    List ℝ × List (Matrix (Fin 2) (Fin 2) ℂ) :=
  (frequency, frequency.map (Lumerical_1550.sMat lam0 ne ng nd length))

/-- A concrete nominal scattering response used for witnesses: at each
frequency a 2×2 matrix whose `(0,1)` transmission entry is `3` below the
threshold `1.9e14` Hz and `1` above it, so the power ratio varies across
the sweep grid. -/
def demoSFn : List ℚ → List SMat :=
  fun fs => fs.map (fun f =>
    [[(0, 0), (if f < 190000000000000 then (3 : ℚ) else 1, 0)],
     [(0, 0), (0, 0)]])

/-- A concrete circuit for witnesses: one component, external pins
`[10, 20]`, the nominal response `demoSFn`, and a Monte-Carlo response
whose transmission entry reads the component's current draw counter. -/
def demoCircuit : Circuit :=
  { paramStates := [0]
    extPins := [10, 20]
    sFn := demoSFn
    mcFn := fun states fs => fs.map (fun _ =>
      [[(0, 0), ((states.headD 0 : ℚ) + 2, 0)],
       [(0, 0), (0, 0)]]) }

/-- A fully connected simulator over `demoCircuit`: its input pin is
connected to circuit pin `10` and its output pin to circuit pin `20`. -/
def demoSim : Simulator :=
  { circuit := demoCircuit, inputConn := some 10, outputConn := some 20 }

/-- A simulator whose input pin is left unconnected. -/
def demoSimNoInput : Simulator :=
  { circuit := demoCircuit, inputConn := none, outputConn := some 20 }

/-- The sweep of the C1 scenario: wavelength bounds `1.5e-6` and `1.6e-6`
metres with `num = 3`, over the connected demo circuit. -/
def demoSweep : SweepSimulator :=
  SweepSimulator.make demoSim (3 / 2000000) (8 / 5000000) 3

/-- Success path of `Simulator.simulate` on an explicit grid (`freq = 0`,
`freqs` given): with both monitored pins connected, the result pairs the
grid with the per-frequency extracted power ratios. -/
theorem Simulator.simulate_some_ok (sim : Simulator) (dB : Bool) (fs : List ℚ)
    (method : SMethod) (a b : ℕ)
    (ha : sim.inputConn = some a) (hb : sim.outputConn = some b) :
    sim.simulate dB 0 (some fs) method =
      .ok (fs, ((sim.circuit.toSubcircuit false).apply method fs).map
        (fun m => applyDB dB
          (entrySq m (sim.circuit.extPins.indexOf a) (sim.circuit.extPins.indexOf b)))) := by
  simp [Simulator.simulate, Simulator.generate, ha, hb, Circuit.toSubcircuit]

/-- Success path of `Simulator.simulate` with a nonzero single `freq`: the
grid collapses to the one-point grid `[freq]` whatever `freqs` was. -/
theorem Simulator.simulate_freq_ok (sim : Simulator) (dB : Bool) (f : ℚ) (hf : f ≠ 0)
    (fsOpt : Option (List ℚ)) (method : SMethod) (a b : ℕ)
    (ha : sim.inputConn = some a) (hb : sim.outputConn = some b) :
    sim.simulate dB f fsOpt method =
      .ok ([f], ((sim.circuit.toSubcircuit false).apply method [f]).map
        (fun m => applyDB dB
          (entrySq m (sim.circuit.extPins.indexOf a) (sim.circuit.extPins.indexOf b)))) := by
  simp [Simulator.simulate, Simulator.generate, hf, ha, hb, Circuit.toSubcircuit]

/-- The sweep constructor stores the underlying simulator unchanged. -/
theorem make_sim_eq (sim : Simulator) (start stop : ℚ) (num : ℕ) :
    (SweepSimulator.make sim start stop num).sim = sim := by
  unfold SweepSimulator.make
  split <;> rfl

/-- Concrete evaluation of the `__init__` grid for wavelength bounds
`1.5e-6`/`1.6e-6` with `num = 3`: wavelength mode is detected and the
frequency grid is descending (the first bound is the smaller wavelength,
hence the larger frequency). -/
theorem demoG_make (sim : Simulator) :
    (SweepSimulator.make sim (3 / 2000000) (8 / 5000000) 3).freqs =
        [599584916000000 / 3, 580847887375000 / 3, 187370286250000] ∧
      (SweepSimulator.make sim (3 / 2000000) (8 / 5000000) 3).mode = true := by
  rw [SweepSimulator.make, if_pos (by norm_num : (3 / 2000000 : ℚ) < 1)]
  refine ⟨?_, rfl⟩
  simp only [linspace, wl2freq, speedOfLight, List.range]
  norm_num [List.range.loop]

/-- Converting that descending frequency grid back with `freq2wl` yields
the ascending wavelength list whose middle point is the harmonic mean
`(48/31)·10⁻⁶`, not the arithmetic mean `1.55·10⁻⁶`. -/
theorem demoG_wl :
    ([599584916000000 / 3, 580847887375000 / 3, (187370286250000 : ℚ)]).map freq2wl =
      [3 / 2000000, 48 / 31000000, 8 / 5000000] := by
  norm_num [freq2wl, speedOfLight]

/-- Concrete per-frequency power ratios of the demo circuit over the C1
grid: the two larger frequencies see transmission `1` (ratio `1`), the
smallest sees transmission `3` (ratio `9`). -/
theorem demo_ratio_eval :
    ((demoCircuit.toSubcircuit false).apply .sParams
        [599584916000000 / 3, 580847887375000 / 3, 187370286250000]).map
      (fun m => applyDB false
        (entrySq m (demoCircuit.extPins.indexOf 10) (demoCircuit.extPins.indexOf 20))) =
    [applyDB false 1, applyDB false 1, applyDB false 9] := by
  have h1 : ¬((599584916000000 / 3 : ℚ) < 190000000000000) := by norm_num
  have h2 : ¬((580847887375000 / 3 : ℚ) < 190000000000000) := by norm_num
  have h3 : ((187370286250000 : ℚ) < 190000000000000) := by norm_num
  have hi : demoCircuit.extPins.indexOf 10 = 0 := rfl
  have ho : demoCircuit.extPins.indexOf 20 = 1 := rfl
  rw [hi, ho]
  simp only [Circuit.toSubcircuit, Subcircuit.apply, demoCircuit, demoSFn, List.map_cons,
    List.map_nil, h1, h2, h3, if_true, if_false, if_neg, if_pos, entrySq, getEntry, gqNormSq,
    List.getD_cons_zero, List.getD_cons_succ]
  norm_num

/-- The Monte-Carlo loop body from a positive loop index onward: every
remaining trial uses the Monte-Carlo matrix method, and the circuit state
threaded into trial `k` is the `k`-fold regeneration of the entry state. -/
theorem mcLoop_pos_spec (dB : Bool) (s : SweepSimulator) (i n : ℕ) (hi : 0 < i) :
    mcLoop dB s i n =
      ((List.range n).map
        (fun k => (SweepSimulator.regen^[k] s).simulate dB .monteCarloSParams),
       SweepSimulator.regen^[n] s) := by
  induction n generalizing s i with
  | zero => simp [mcLoop]
  | succ n ih =>
    rw [mcLoop, ih s.regen (i + 1) (Nat.succ_pos i)]
    simp [List.range_succ_eq_map, Function.comp, Function.iterate_succ_apply, hi.ne']

/-- The Monte-Carlo loop from index `0`: trial `0` uses the nominal matrix
method and each later trial `k` the Monte-Carlo method on the `k`-fold
regenerated circuit. -/
theorem mcLoop_zero_spec (dB : Bool) (s : SweepSimulator) (n : ℕ) :
    mcLoop dB s 0 n =
      ((List.range n).map
        (fun k => (SweepSimulator.regen^[k] s).simulate dB
          (if k = 0 then .sParams else .monteCarloSParams)),
       SweepSimulator.regen^[n] s) := by
  cases n with
  | zero => simp [mcLoop]
  | succ n =>
    rw [mcLoop, mcLoop_pos_spec dB s.regen 1 n Nat.one_pos]
    simp [List.range_succ_eq_map, Function.comp, Function.iterate_succ_apply]

/-- Closed form of `MonteCarloSweepSimulator.simulate`: the trial list with
its per-trial methods and circuit states, plus the final mutated state. -/
theorem mc_simulate_spec (s : SweepSimulator) (runs : ℕ) (dB : Bool) :
    MonteCarloSweepSimulator.simulate s runs dB =
      ((List.range runs).map
        (fun k => (SweepSimulator.regen^[k] s).simulate dB
          (if k = 0 then .sParams else .monteCarloSParams)),
       SweepSimulator.regen^[runs] s) :=
  mcLoop_zero_spec dB s runs

/-- `n`-fold regeneration advances every component's draw counter by `n`. -/
theorem regen_iterate_paramStates (s : SweepSimulator) (n : ℕ) :
    (SweepSimulator.regen^[n] s).sim.circuit.paramStates =
      s.sim.circuit.paramStates.map (· + n) := by
  induction n with
  | zero => simp
  | succ n ih =>
    rw [Function.iterate_succ_apply']
    simp [SweepSimulator.regen, Circuit.regenerateAll, ih, List.map_map, Function.comp,
      Nat.add_assoc]

/-- The common loss coefficient of `models.py` is strictly positive: it is
`700` dB/m divided by `20·log₁₀ e`, and `log₁₀ e > 0`. -/
theorem annAlpha_pos : 0 < annAlpha := by
  have h : 0 < Real.logb 10 (Real.exp 1) :=
    Real.logb_pos (by norm_num) (by linarith [Real.exp_one_gt_d9])
  exact div_pos (by norm_num) (by linarith)

/-- The magnitude of the transmission entry is `exp(-alpha*L)`: the
imaginary part `K·L` only contributes phase. -/
theorem wgEntry_abs (L K : ℝ) :
    Complex.abs (wgEntry L K) = Real.exp (-(annAlpha * L)) := by
  rw [wgEntry, Complex.abs_exp]
  simp

/-- For a nonnegative propagation length the transmission magnitude is at
most one. -/
theorem wgEntry_abs_le_one (L K : ℝ) (hL : 0 ≤ L) : Complex.abs (wgEntry L K) ≤ 1 := by
  rw [wgEntry_abs, Real.exp_le_one_iff]
  exact neg_nonpos.mpr (mul_nonneg annAlpha_pos.le hL)

/-- Every entry of the off-diagonal 2×2 matrix `[[0, t], [t, 0]]` has
magnitude at most one whenever `t` does. -/
theorem swapMat_abs_le (t : ℂ) (ht : Complex.abs t ≤ 1) (i j : Fin 2) :
    Complex.abs ((!![0, t; t, 0] : Matrix (Fin 2) (Fin 2) ℂ) i j) ≤ 1 := by
  fin_cases i <;> fin_cases j <;> simp [ht]

/-- `MᴴM` of the off-diagonal matrix is `|t|²` times the identity, so both
of its singular values equal `|t|`. -/
theorem swapMat_conjT_mul (t : ℂ) :
    Matrix.conjTranspose (!![0, t; t, 0] : Matrix (Fin 2) (Fin 2) ℂ) * !![0, t; t, 0] =
      ((Complex.abs t ^ 2 : ℝ) : ℂ) • (1 : Matrix (Fin 2) (Fin 2) ℂ) := by
  ext i j
  fin_cases i <;> fin_cases j <;>
    simp [Matrix.mul_apply, Fin.sum_univ_two, Matrix.conjTranspose_apply, Matrix.one_apply,
      Matrix.smul_apply, Complex.normSq_eq_abs, Complex.mul_conj, mul_comm]

/-- Unfolding of the ANN waveguide matrix at one frequency: the
off-diagonal matrix of the transmission entry for the perturbed length
`length·(1 + delta_length)`. -/
theorem ann_sMat_eq (neff : ℝ → ℝ → ℝ → ℝ → ℝ)
    (length width thickness delta_length f : ℝ) :
    ANN_WG.sMat neff length width thickness delta_length f =
      !![0, wgEntry (length + length * delta_length)
            (2 * Real.pi * neff (299792458 / f) width thickness 90 / (299792458 / f));
         wgEntry (length + length * delta_length)
            (2 * Real.pi * neff (299792458 / f) width thickness 90 / (299792458 / f)), 0] := rfl

/-- Unfolding of the Lumerical waveguide matrix at one frequency: the
off-diagonal matrix of the transmission entry for the unperturbed
`length`. -/
theorem lum_sMat_eq (lam0 ne ng nd length f : ℝ) :
    Lumerical_1550.sMat lam0 ne ng nd length f =
      !![0, wgEntry length
            (2 * Real.pi * ne / lam0 + (ng / 299792458) * (f * (2 * Real.pi) - 2 * Real.pi * 299792458 / lam0)
              - (nd * lam0 ^ 2 / (4 * Real.pi * 299792458)) * (f * (2 * Real.pi) - 2 * Real.pi * 299792458 / lam0) ^ 2);
         wgEntry length
            (2 * Real.pi * ne / lam0 + (ng / 299792458) * (f * (2 * Real.pi) - 2 * Real.pi * 299792458 / lam0)
              - (nd * lam0 ^ 2 / (4 * Real.pi * 299792458)) * (f * (2 * Real.pi) - 2 * Real.pi * 299792458 / lam0) ^ 2), 0] := rfl

/-- C1 counterexample: on a concrete single-component circuit, the sweep
with wavelength bounds `[1.5e-6, 1.6e-6]` and `num = 3` returns the
wavelength list whose middle element is `48/31·10⁻⁶ ≠ 1.55·10⁻⁶` (so the
returned wavelengths are not `[1.5e-6, 1.55e-6, 1.6e-6]`), and its ratio
at position `0` is the ratio computed at the frequency of the wavelength
at position `2` (the per-frequency ratio list is `[1, 1, 9]` but `9` is
returned first), so the ratios are not re-ordered to match the
wavelengths. -/
theorem sweep_claim_c1_counterexample :
    SweepSimulator.simulate demoSweep false .sParams =
      .ok ([3 / 2000000, 48 / 31000000, 8 / 5000000],
           [applyDB false 9, applyDB false 1, applyDB false 1]) ∧
    (48 / 31000000 : ℚ) ≠ 31 / 20000000 ∧
    Simulator.simulate demoSim false 0
        (some [599584916000000 / 3, 580847887375000 / 3, 187370286250000]) .sParams =
      .ok ([599584916000000 / 3, 580847887375000 / 3, 187370286250000],
           [applyDB false 1, applyDB false 1, applyDB false 9]) ∧
    applyDB false 9 ≠ applyDB false 1 := by
  refine ⟨?_, by norm_num, ?_, ?_⟩
  · obtain ⟨hf, hm⟩ := demoG_make demoSim
    simp only [demoSweep, SweepSimulator.simulate, make_sim_eq, hf, hm,
      Simulator.simulate_some_ok demoSim false _ .sParams 10 20 rfl rfl]
    rw [show demoSim.circuit = demoCircuit from rfl, demoG_wl, demo_ratio_eval]
    simp
  · rw [Simulator.simulate_some_ok demoSim false _ .sParams 10 20 rfl rfl,
      show demoSim.circuit = demoCircuit from rfl, demo_ratio_eval]
  · norm_num [applyDB]

/-- C1 (amended): for any circuit with both monitored pins connected, the
sweep with wavelength bounds `[1.5e-6, 1.6e-6]` and `num = 3` returns the
ascending wavelength list `[1.5e-6, (48/31)e-6, 1.6e-6]` — the image under
`c/f` of the uniform (descending) frequency grid, with the middle point
the harmonic mean of the bounds rather than `1.55e-6` — paired with the
reverse of the per-frequency ratio list, so the ratio at position `i`
belongs to the frequency of the wavelength at position `n-1-i`. -/
theorem sweep_wl_resorted (sim : Simulator) (a b : ℕ)
    (ha : sim.inputConn = some a) (hb : sim.outputConn = some b)
    (dB : Bool) (method : SMethod) :
    SweepSimulator.simulate (SweepSimulator.make sim (3 / 2000000) (8 / 5000000) 3) dB method =
      .ok ([3 / 2000000, 48 / 31000000, 8 / 5000000],
        (((sim.circuit.toSubcircuit false).apply method
              [599584916000000 / 3, 580847887375000 / 3, 187370286250000]).map
            (fun m => applyDB dB
              (entrySq m (sim.circuit.extPins.indexOf a) (sim.circuit.extPins.indexOf b)))).reverse) := by
  obtain ⟨hf, hm⟩ := demoG_make sim
  simp only [SweepSimulator.simulate, make_sim_eq, hf, hm,
    Simulator.simulate_some_ok sim dB _ method a b ha hb]
  rw [demoG_wl]
  simp

/-- C1 witness: the amended statement instantiated at the connected demo
circuit. -/
theorem sweep_wl_resorted_witness :
    demoSim.inputConn = some 10 ∧ demoSim.outputConn = some 20 ∧
    SweepSimulator.simulate (SweepSimulator.make demoSim (3 / 2000000) (8 / 5000000) 3)
        false .sParams =
      .ok ([3 / 2000000, 48 / 31000000, 8 / 5000000],
        (((demoSim.circuit.toSubcircuit false).apply .sParams
              [599584916000000 / 3, 580847887375000 / 3, 187370286250000]).map
            (fun m => applyDB false
              (entrySq m (demoSim.circuit.extPins.indexOf 10)
                (demoSim.circuit.extPins.indexOf 20)))).reverse) :=
  ⟨rfl, rfl, sweep_wl_resorted demoSim 10 20 rfl rfl false .sParams⟩

/-- C2 counterexample: a call supplying both a nonzero `freq` and a
`freqs` sequence succeeds with a normal result instead of failing with a
`ValueError`. -/
theorem c2_both_supplied_counterexample :
    Simulator.simulate demoSim false 7 (some [5, 11]) .sParams =
      .ok ([7], [applyDB false 9]) := by
  rw [Simulator.simulate_freq_ok demoSim false 7 (by norm_num) (some [5, 11]) .sParams
    10 20 rfl rfl, show demoSim.circuit = demoCircuit from rfl]
  have hi : demoCircuit.extPins.indexOf 10 = 0 := rfl
  have ho : demoCircuit.extPins.indexOf 20 = 1 := rfl
  rw [hi, ho]
  have h7 : ((7 : ℚ) < 190000000000000) := by norm_num
  simp only [Circuit.toSubcircuit, Subcircuit.apply, demoCircuit, demoSFn, List.map_cons,
    List.map_nil, h7, if_pos, entrySq, getEntry, gqNormSq,
    List.getD_cons_zero, List.getD_cons_succ]
  norm_num

/-- C2 (amended): `simulate` performs no mutual-exclusion check on
`freq`/`freqs`: a nonzero `freq` silently takes precedence (the result is
identical whatever `freqs` holds, with no error), and when neither is
supplied (`freq = 0` is falsy, `freqs = None`) the call fails only because
the `None` grid reaches the s-parameter evaluation — not through a
`ValueError` raised by the argument handling. -/
theorem simulate_no_ambiguity_check (sim : Simulator) (dB : Bool) (f : ℚ)
    (fsOpt : Option (List ℚ)) (method : SMethod) (hf : f ≠ 0) :
    sim.simulate dB f fsOpt method = sim.simulate dB f none method ∧
    (∀ a b, sim.inputConn = some a → sim.outputConn = some b →
      sim.simulate dB 0 none method = .error .noneGrid) := by
  constructor
  · simp [Simulator.simulate, hf]
  · intro a b ha hb
    simp [Simulator.simulate, Simulator.generate, ha, hb]

/-- C2 witness: the amended statement instantiated at `freq = 7`,
`freqs = [5, 11]` on the connected demo circuit. -/
theorem simulate_no_ambiguity_check_witness :
    (7 : ℚ) ≠ 0 ∧
    (Simulator.simulate demoSim false 7 (some [5, 11]) .sParams =
        Simulator.simulate demoSim false 7 none .sParams ∧
      (∀ a b, demoSim.inputConn = some a → demoSim.outputConn = some b →
        Simulator.simulate demoSim false 0 none .sParams = .error .noneGrid)) :=
  ⟨by norm_num,
   simulate_no_ambiguity_check demoSim false 7 (some [5, 11]) .sParams (by norm_num)⟩

/-- C3: the first Monte-Carlo trial (index 0) uses the nominal
`s_parameters` method on the unmodified circuit, so its result exactly
equals a direct `SweepSimulator.simulate` run on the same circuit and
grid; every trial `k` with `1 ≤ k < runs` uses the
`monte_carlo_s_parameters` method (on the `k`-fold regenerated
circuit). -/
theorem mc_trial0_equals_sweep (s : SweepSimulator) (dB : Bool) (runs : ℕ) (h : 0 < runs) :
    (MonteCarloSweepSimulator.simulate s runs dB).1[0]? =
      some (s.simulate dB .sParams) ∧
    ∀ k, 0 < k → k < runs →
      (MonteCarloSweepSimulator.simulate s runs dB).1[k]? =
        some ((SweepSimulator.regen^[k] s).simulate dB .monteCarloSParams) := by
  rw [mc_simulate_spec]
  constructor
  · simp [List.getElem?_map, List.getElem?_range, h]
  · intro k hk hkr
    simp [List.getElem?_map, List.getElem?_range, hkr, hk.ne']

/-- C3 witness: two trials on the demo sweep. -/
theorem mc_trial0_equals_sweep_witness :
    0 < 2 ∧
    ((MonteCarloSweepSimulator.simulate demoSweep 2 false).1[0]? =
        some (demoSweep.simulate false .sParams) ∧
      ∀ k, 0 < k → k < 2 →
        (MonteCarloSweepSimulator.simulate demoSweep 2 false).1[k]? =
          some ((SweepSimulator.regen^[k] demoSweep).simulate false .monteCarloSParams)) :=
  ⟨by norm_num, mc_trial0_equals_sweep demoSweep false 2 (by norm_num)⟩

/-- C4: every successful `simulate` call returns, at each frequency, the
squared magnitude of the reduced-matrix entry at (input-pin-index,
output-pin-index); with `dB = true` it returns the base-10 logarithm of
that squared magnitude, with no factor-of-10 scaling. -/
theorem simulate_ratio_spec (sim : Simulator) (freq : ℚ) (fsOpt : Option (List ℚ))
    (fs : List ℚ) (method : SMethod) (a b : ℕ)
    (hgrid : (if freq ≠ 0 then some [freq] else fsOpt) = some fs)
    (ha : sim.inputConn = some a) (hb : sim.outputConn = some b) :
    sim.simulate false freq fsOpt method =
      .ok (fs, ((sim.circuit.toSubcircuit false).apply method fs).map
        (fun m => ((entrySq m (sim.circuit.extPins.indexOf a)
            (sim.circuit.extPins.indexOf b) : ℚ) : ℝ))) ∧
    sim.simulate true freq fsOpt method =
      .ok (fs, ((sim.circuit.toSubcircuit false).apply method fs).map
        (fun m => Real.logb 10 ((entrySq m (sim.circuit.extPins.indexOf a)
            (sim.circuit.extPins.indexOf b) : ℚ) : ℝ))) := by
  by_cases hfq : freq = 0
  · subst hfq
    rw [if_neg (by simp)] at hgrid
    subst hgrid
    constructor <;>
    · rw [Simulator.simulate_some_ok sim _ fs method a b ha hb]
      simp [applyDB]
  · have hfs : fs = [freq] := by
      rw [if_pos hfq] at hgrid
      exact (Option.some_injective _ hgrid).symm
    subst hfs
    constructor <;>
    · rw [Simulator.simulate_freq_ok sim _ freq hfq fsOpt method a b ha hb]
      simp [applyDB]

/-- C4 witness: the spec instantiated on the demo circuit with the
one-point grid `[5]`. -/
theorem simulate_ratio_spec_witness :
    ((if (0 : ℚ) ≠ 0 then some [(0 : ℚ)] else some [(5 : ℚ)]) = some [(5 : ℚ)]) ∧
    demoSim.inputConn = some 10 ∧ demoSim.outputConn = some 20 ∧
    (Simulator.simulate demoSim false 0 (some [5]) .sParams =
        .ok ([5], ((demoSim.circuit.toSubcircuit false).apply .sParams [5]).map
          (fun m => ((entrySq m (demoSim.circuit.extPins.indexOf 10)
              (demoSim.circuit.extPins.indexOf 20) : ℚ) : ℝ))) ∧
      Simulator.simulate demoSim true 0 (some [5]) .sParams =
        .ok ([5], ((demoSim.circuit.toSubcircuit false).apply .sParams [5]).map
          (fun m => Real.logb 10 ((entrySq m (demoSim.circuit.extPins.indexOf 10)
              (demoSim.circuit.extPins.indexOf 20) : ℚ) : ℝ)))) :=
  ⟨by norm_num, rfl, rfl,
   simulate_ratio_spec demoSim 0 (some [5]) [5] .sParams 10 20 (by norm_num) rfl rfl⟩

/-- C5: `_generate` fails with the unconnected error whenever the input or
the output pin lacks a connection, without building any subcircuit; when
both are connected it builds the non-permanent subcircuit reduction and
returns the reduced matrix stack together with the reduced pin
ordering. -/
theorem generate_requires_connection (sim : Simulator) (fs : List ℚ) (method : SMethod) :
    (sim.inputConn = none ∨ sim.outputConn = none →
      sim.generate (some fs) method = .error .unconnected) ∧
    (∀ a b, sim.inputConn = some a → sim.outputConn = some b →
      sim.generate (some fs) method =
        .ok ((sim.circuit.toSubcircuit false).apply method fs,
          (sim.circuit.toSubcircuit false).pins) ∧
      (sim.circuit.toSubcircuit false).permanent = false) := by
  constructor
  · rintro (h | h) <;> simp [Simulator.generate, h]
  · intro a b ha hb
    exact ⟨by simp [Simulator.generate, ha, hb], by simp [Circuit.toSubcircuit]⟩

/-- C5 witness: the unconnected demo simulator errors; the connected one
returns the non-permanent reduction. -/
theorem generate_requires_connection_witness :
    (demoSimNoInput.inputConn = none ∨ demoSimNoInput.outputConn = none) ∧
    demoSimNoInput.generate (some [1]) .sParams = .error .unconnected ∧
    (demoSim.generate (some [1]) .sParams =
        .ok ((demoSim.circuit.toSubcircuit false).apply .sParams [1],
          (demoSim.circuit.toSubcircuit false).pins) ∧
      (demoSim.circuit.toSubcircuit false).permanent = false) :=
  ⟨Or.inl rfl,
   (generate_requires_connection demoSimNoInput [1] .sParams).1 (Or.inl rfl),
   (generate_requires_connection demoSim [1] .sParams).2 10 20 rfl rfl⟩

/-- C6: unit-mode auto-detection. When both bounds are below `1` the sweep
operates in wavelength mode and converts each bound to a frequency as
`speed_of_light / wavelength` before building the uniform `num`-point
grid; when both bounds are at least `1` it operates in frequency mode and
uses them directly. -/
theorem sweep_mode_autodetect (sim : Simulator) (start stop : ℚ) (num : ℕ) :
    (start < 1 → stop < 1 →
      (SweepSimulator.make sim start stop num).mode = true ∧
      (SweepSimulator.make sim start stop num).freqs =
        linspace (speedOfLight / start) (speedOfLight / stop) num) ∧
    (1 ≤ start → 1 ≤ stop →
      (SweepSimulator.make sim start stop num).mode = false ∧
      (SweepSimulator.make sim start stop num).freqs = linspace start stop num) := by
  constructor
  · intro h _
    rw [SweepSimulator.make, if_pos h]
    exact ⟨rfl, rfl⟩
  · intro h _
    rw [SweepSimulator.make, if_neg (not_lt.mpr h)]
    exact ⟨rfl, rfl⟩

/-- C6 witness: wavelength bounds `1.5e-6`/`1.6e-6` trigger wavelength
mode with converted bounds; frequency-like bounds `2`/`3` are used
directly. -/
theorem sweep_mode_autodetect_witness :
    ((3 / 2000000 : ℚ) < 1 ∧ (8 / 5000000 : ℚ) < 1 ∧
      ((SweepSimulator.make demoSim (3 / 2000000) (8 / 5000000) 3).mode = true ∧
        (SweepSimulator.make demoSim (3 / 2000000) (8 / 5000000) 3).freqs =
          linspace (speedOfLight / (3 / 2000000)) (speedOfLight / (8 / 5000000)) 3)) ∧
    ((1 : ℚ) ≤ 2 ∧ (1 : ℚ) ≤ 3 ∧
      ((SweepSimulator.make demoSim 2 3 5).mode = false ∧
        (SweepSimulator.make demoSim 2 3 5).freqs = linspace 2 3 5)) :=
  ⟨⟨by norm_num, by norm_num,
    (sweep_mode_autodetect demoSim (3 / 2000000) (8 / 5000000) 3).1 (by norm_num) (by norm_num)⟩,
   ⟨by norm_num, by norm_num,
    (sweep_mode_autodetect demoSim 2 3 5).2 (by norm_num) (by norm_num)⟩⟩

/-- C7: between consecutive trials every component regenerates its
Monte-Carlo parameters: trial `k` runs on the `k`-fold regenerated
circuit, trial `k+1` runs on exactly one further regeneration of that
state (made strictly before it runs, with the Monte-Carlo method), and one
regeneration advances the draw counter of every component. -/
theorem mc_regen_between_trials (s : SweepSimulator) (dB : Bool) (runs k : ℕ)
    (h : k + 1 < runs) :
    (MonteCarloSweepSimulator.simulate s runs dB).1[k]? =
      some ((SweepSimulator.regen^[k] s).simulate dB
        (if k = 0 then .sParams else .monteCarloSParams)) ∧
    (MonteCarloSweepSimulator.simulate s runs dB).1[k + 1]? =
      some (((SweepSimulator.regen^[k] s).regen).simulate dB .monteCarloSParams) ∧
    ((SweepSimulator.regen^[k] s).regen).sim.circuit.paramStates =
      (SweepSimulator.regen^[k] s).sim.circuit.paramStates.map (· + 1) := by
  refine ⟨?_, ?_, ?_⟩
  · rw [mc_simulate_spec]
    simp [List.getElem?_map, List.getElem?_range, Nat.lt_of_succ_lt h]
  · rw [mc_simulate_spec]
    simp [List.getElem?_map, List.getElem?_range, h, Function.iterate_succ_apply']
  · simp [SweepSimulator.regen, Circuit.regenerateAll]

/-- C7 witness: trials 0 and 1 of a three-trial run on the demo sweep. -/
theorem mc_regen_between_trials_witness :
    0 + 1 < 3 ∧
    ((MonteCarloSweepSimulator.simulate demoSweep 3 false).1[0]? =
        some ((SweepSimulator.regen^[0] demoSweep).simulate false
          (if 0 = 0 then .sParams else .monteCarloSParams)) ∧
      (MonteCarloSweepSimulator.simulate demoSweep 3 false).1[0 + 1]? =
        some (((SweepSimulator.regen^[0] demoSweep).regen).simulate false .monteCarloSParams) ∧
      ((SweepSimulator.regen^[0] demoSweep).regen).sim.circuit.paramStates =
        (SweepSimulator.regen^[0] demoSweep).sim.circuit.paramStates.map (· + 1)) :=
  ⟨by norm_num, mc_regen_between_trials demoSweep false 3 0 (by norm_num)⟩

/-- C8: passivity of the waveguide models. For positive frequencies,
nonnegative length (and `delta_length ≥ -1` for the ANN model's relative
perturbation), every per-frequency 2×2 matrix returned by either
`get_s_parameters` has all entries of magnitude at most 1; the
transmission magnitude is exactly `exp(-alpha·L)` for the model's
effective length, with `alpha > 0` derived from the 700 dB/m loss figure;
and `MᴴM` is `|t|²` times the identity, so every singular value of the
matrix equals the transmission magnitude and is at most 1. -/
theorem waveguide_models_passive
    (neff : ℝ → ℝ → ℝ → ℝ → ℝ) (frequency : List ℝ)
    (length width thickness delta_length lam0 ne ng nd : ℝ)
    (hfreq : ∀ f ∈ frequency, 0 < f) (hlen : 0 ≤ length) (hdl : -1 ≤ delta_length)
    (M : Matrix (Fin 2) (Fin 2) ℂ)
    (hM : M ∈ (ANN_WG.get_s_parameters neff frequency length width thickness delta_length).2 ∨
      M ∈ (Lumerical_1550.get_s_parameters lam0 ne ng nd frequency length width
            thickness delta_length).2) :
    0 < annAlpha ∧
    (Complex.abs (M 0 1) = Real.exp (-(annAlpha * (length + length * delta_length))) ∨
      Complex.abs (M 0 1) = Real.exp (-(annAlpha * length))) ∧
    (∀ i j, Complex.abs (M i j) ≤ 1) ∧
    Matrix.conjTranspose M * M =
      ((Complex.abs (M 0 1) ^ 2 : ℝ) : ℂ) • (1 : Matrix (Fin 2) (Fin 2) ℂ) := by
  have hL : 0 ≤ length + length * delta_length := by nlinarith
  obtain hA | hB := hM
  · simp only [ANN_WG.get_s_parameters] at hA
    obtain ⟨f, hf, rfl⟩ := List.mem_map.mp hA
    rw [ann_sMat_eq]
    set t := wgEntry (length + length * delta_length)
      (2 * Real.pi * neff (299792458 / f) width thickness 90 / (299792458 / f)) with ht
    have h01 : (!![0, t; t, 0] : Matrix (Fin 2) (Fin 2) ℂ) 0 1 = t := rfl
    rw [h01]
    refine ⟨annAlpha_pos, Or.inl ?_, ?_, ?_⟩
    · rw [ht]
      exact wgEntry_abs _ _
    · exact swapMat_abs_le t (wgEntry_abs_le_one _ _ hL)
    · exact swapMat_conjT_mul t
  · simp only [Lumerical_1550.get_s_parameters] at hB
    obtain ⟨f, hf, rfl⟩ := List.mem_map.mp hB
    rw [lum_sMat_eq]
    set t := wgEntry length
      (2 * Real.pi * ne / lam0 + (ng / 299792458) * (f * (2 * Real.pi) - 2 * Real.pi * 299792458 / lam0)
        - (nd * lam0 ^ 2 / (4 * Real.pi * 299792458)) * (f * (2 * Real.pi) - 2 * Real.pi * 299792458 / lam0) ^ 2) with ht
    have h01 : (!![0, t; t, 0] : Matrix (Fin 2) (Fin 2) ℂ) 0 1 = t := rfl
    rw [h01]
    refine ⟨annAlpha_pos, Or.inr ?_, ?_, ?_⟩
    · rw [ht]
      exact wgEntry_abs _ _
    · exact swapMat_abs_le t (wgEntry_abs_le_one _ _ hlen)
    · exact swapMat_conjT_mul t

/-- C8 witness: the ANN model at zero length and unit frequency. -/
theorem waveguide_models_passive_witness :
    (∀ f ∈ ([1] : List ℝ), 0 < f) ∧ (0 : ℝ) ≤ 0 ∧ (-1 : ℝ) ≤ (0 : ℝ) ∧
    (0 < annAlpha ∧
      (Complex.abs (ANN_WG.sMat (fun _ _ _ _ => 2) 0 1 1 0 1 0 1) =
          Real.exp (-(annAlpha * ((0 : ℝ) + 0 * 0))) ∨
        Complex.abs (ANN_WG.sMat (fun _ _ _ _ => 2) 0 1 1 0 1 0 1) =
          Real.exp (-(annAlpha * (0 : ℝ)))) ∧
      (∀ i j, Complex.abs (ANN_WG.sMat (fun _ _ _ _ => 2) 0 1 1 0 1 i j) ≤ 1) ∧
      Matrix.conjTranspose (ANN_WG.sMat (fun _ _ _ _ => 2) 0 1 1 0 1) *
          ANN_WG.sMat (fun _ _ _ _ => 2) 0 1 1 0 1 =
        ((Complex.abs (ANN_WG.sMat (fun _ _ _ _ => 2) 0 1 1 0 1 0 1) ^ 2 : ℝ) : ℂ) •
          (1 : Matrix (Fin 2) (Fin 2) ℂ)) :=
  ⟨by norm_num, le_refl 0, by norm_num,
   waveguide_models_passive (fun _ _ _ _ => 2) [1] 0 1 1 0 1 1 1 1
     (by norm_num) (le_refl 0) (by norm_num)
     (ANN_WG.sMat (fun _ _ _ _ => 2) 0 1 1 0 1)
     (Or.inl (by simp [ANN_WG.get_s_parameters]))⟩

/-- C9: at every frequency sample, both waveguide models return a
symmetric matrix with zero diagonal: the `(0,1)` and `(1,0)` entries hold
the same complex transmission value and the `(0,0)`/`(1,1)` reflection
entries are exactly 0 (the models are reciprocal and introduce no
reflection); the returned stacks are exactly the per-frequency maps of
these matrices. -/
theorem waveguide_symmetric_zero_diag
    (neff : ℝ → ℝ → ℝ → ℝ → ℝ) (frequency : List ℝ)
    (length width thickness delta_length lam0 ne ng nd f : ℝ) :
    (ANN_WG.sMat neff length width thickness delta_length f 0 0 = 0 ∧
     ANN_WG.sMat neff length width thickness delta_length f 1 1 = 0 ∧
     ANN_WG.sMat neff length width thickness delta_length f 0 1 =
       ANN_WG.sMat neff length width thickness delta_length f 1 0) ∧
    (Lumerical_1550.sMat lam0 ne ng nd length f 0 0 = 0 ∧
     Lumerical_1550.sMat lam0 ne ng nd length f 1 1 = 0 ∧
     Lumerical_1550.sMat lam0 ne ng nd length f 0 1 =
       Lumerical_1550.sMat lam0 ne ng nd length f 1 0) ∧
    (ANN_WG.get_s_parameters neff frequency length width thickness delta_length).2 =
      frequency.map (ANN_WG.sMat neff length width thickness delta_length) ∧
    (Lumerical_1550.get_s_parameters lam0 ne ng nd frequency length width thickness
        delta_length).2 =
      frequency.map (Lumerical_1550.sMat lam0 ne ng nd length) :=
  ⟨⟨rfl, rfl, rfl⟩, ⟨rfl, rfl, rfl⟩, rfl, rfl⟩

/-- C10: `MonteCarloSweepSimulator.simulate` with `runs = n` leaves every
component with its draw counter advanced exactly `n` times — the final
regeneration happens after the last trial, so the circuit ends holding a
fresh draw that no returned trial consumed: trial `k` (for `k < n`) reads
only the `k`-fold regenerated state. -/
theorem mc_regen_frame (s : SweepSimulator) (dB : Bool) (runs : ℕ) :
    (MonteCarloSweepSimulator.simulate s runs dB).2 = SweepSimulator.regen^[runs] s ∧
    (MonteCarloSweepSimulator.simulate s runs dB).2.sim.circuit.paramStates =
      s.sim.circuit.paramStates.map (· + runs) ∧
    ∀ k, k < runs →
      (MonteCarloSweepSimulator.simulate s runs dB).1[k]? =
        some ((SweepSimulator.regen^[k] s).simulate dB
          (if k = 0 then .sParams else .monteCarloSParams)) := by
  refine ⟨?_, ?_, ?_⟩
  · rw [mc_simulate_spec]
  · rw [mc_simulate_spec]
    exact regen_iterate_paramStates s runs
  · intro k hk
    rw [mc_simulate_spec]
    simp [List.getElem?_map, List.getElem?_range, hk]

/-- C10 witness: a single-trial run on the demo sweep. -/
theorem mc_regen_frame_witness :
    0 < 1 ∧
    (MonteCarloSweepSimulator.simulate demoSweep 1 false).1[0]? =
      some ((SweepSimulator.regen^[0] demoSweep).simulate false
        (if 0 = 0 then .sParams else .monteCarloSParams)) :=
  ⟨by norm_num, (mc_regen_frame demoSweep false 1).2.2 0 (by norm_num)⟩
